import Mathlib

/-!
Shallow embedding of the MLG382_Project2 notebook
(src/Project_2_Final/Project_2_Final/Proj_2.ipynb).

The notebook loads a house-sales CSV into a dataframe, prepares it with
`data_prepared` (price-quantile outlier filter, three derived feature
columns, column drops), splits it into train/test partitions, fits
random-forest regressors (plain, in an imputer pipeline, and via a
grid search with 5-fold cross-validation), and serves single-row
predictions through a Dash callback `update_output`.

Numeric cell values are modelled as rationals.  Pandas float division
can produce infinities and NaN (e.g. bedrooms / bathrooms when
bathrooms = 0), so derived columns live in an extended value type
`PVal` with the numpy division semantics.  The CSV contents are a
parameter (a list of raw rows); the fitted regressors are modelled as
decision-tree forests whose fitting procedure is an abstract oracle,
since fitting is library code.
-/

/-- Extended cell value: a finite rational, plus the IEEE-style
infinities and NaN that numpy float division can produce. -/
inductive PVal where
  | fin (q : ℚ)
  | inf
  | ninf
  | nan
deriving DecidableEq, Repr

/-- Numpy/pandas division of two finite column values: ordinary
division when the denominator is nonzero, otherwise +inf, -inf or NaN
depending on the sign of the numerator. -/
def pdiv (a b : ℚ) : PVal :=
  if b ≠ 0 then .fin (a / b)
  else if 0 < a then .inf
  else if a < 0 then .ninf
  else .nan

/-- One raw CSV record, with the full column set of data.csv. -/
structure RawRow where
  date : String
  price : ℚ
  bedrooms : ℚ
  bathrooms : ℚ
  sqft_living : ℚ
  sqft_lot : ℚ
  floors : ℚ
  waterfront : ℚ
  view : ℚ
  condition : ℚ
  sqft_above : ℚ
  sqft_basement : ℚ
  yr_built : ℚ
  yr_renovated : ℚ
  street : String
  city : String
  statezip : String
  country : String
deriving DecidableEq

/-- One row of the table returned by `data_prepared`: the retained raw
columns plus the three derived feature columns. -/
structure PrepRow where
  price : ℚ
  bedrooms : ℚ
  bathrooms : ℚ
  sqft_living : ℚ
  floors : ℚ
  waterfront : ℚ
  view : ℚ
  bedrooms_to_bathrooms_ratio : PVal
  price_per_sqft : PVal
  bedrooms_bathrooms_interaction : ℚ
deriving DecidableEq

/-- Insert a rational into a sorted list, keeping it sorted ascending. -/
def insertSorted (x : ℚ) : List ℚ → List ℚ
  | [] => [x]
  | y :: ys => if x ≤ y then x :: y :: ys else y :: insertSorted x ys

/-- Insertion sort, ascending. -/
def sortAsc (l : List ℚ) : List ℚ := l.foldr insertSorted []

/-- Pandas `Series.quantile(q)` with the default linear interpolation,
for the quantile q = qnum / qden (0 ≤ qnum ≤ qden, qden > 0): sort the
n values ascending, take position h = q * (n - 1), and interpolate
linearly between the values at index ⌊h⌋ and ⌊h⌋ + 1.  The index
⌊h⌋ = qnum * (n - 1) / qden is computed by natural division.  Pandas
returns NaN on an empty series; this embedding returns 0 there (the
prepared table is empty in that case either way). -/
def quantile (xs : List ℚ) (qnum qden : ℕ) : ℚ :=
  let s := sortAsc xs
  if s.isEmpty then 0
  else
    let n := s.length
    let i : ℕ := qnum * (n - 1) / qden
    let γ : ℚ := ((qnum : ℚ) * ((n : ℚ) - 1)) / (qden : ℚ) - (i : ℚ)
    let lo := s.getD i 0
    let hi := s.getD (i + 1) lo
    lo + γ * (hi - lo)

/-- 10th percentile of the raw price column (computed pre-filter). -/
def priceQ10 (raw : List RawRow) : ℚ :=
  quantile (raw.map (·.price)) 1 10

/-- 90th percentile of the raw price column (computed pre-filter). -/
def priceQ90 (raw : List RawRow) : ℚ :=
  quantile (raw.map (·.price)) 9 10

/-- Row-wise part of `data_prepared`: append the three derived columns
(bedrooms_to_bathrooms_ratio, price_per_sqft,
bedrooms_bathrooms_interaction) and drop country, statezip,
sqft_above, sqft_basement, yr_renovated, condition, yr_built, date,
street, city and sqft_lot. -/
def prepareRow (r : RawRow) : PrepRow :=
  { price := r.price
    bedrooms := r.bedrooms
    bathrooms := r.bathrooms
    sqft_living := r.sqft_living
    floors := r.floors
    waterfront := r.waterfront
    view := r.view
    bedrooms_to_bathrooms_ratio := pdiv r.bedrooms r.bathrooms
    price_per_sqft := pdiv r.price r.sqft_living
    bedrooms_bathrooms_interaction := r.bedrooms * r.bathrooms }

/-- The notebook's `data_prepared()` on a raw dataset: filter to rows
whose price lies between the 10th and 90th percentile of the original
price column (inclusive), then derive the three feature columns and
drop the unused columns.  The date-to-datetime conversion touches no
column used afterwards. -/
def data_prepared (raw : List RawRow) : List PrepRow :=
  let q10 := priceQ10 raw
  let q90 := priceQ90 raw
  ((raw.filter fun r => decide (q10 ≤ r.price) && decide (r.price ≤ q90)).map
    prepareRow)

/-! ## Column schemas -/

/-- Column names of data.csv, in file order. -/
def rawColumns : List String :=
  ["date", "price", "bedrooms", "bathrooms", "sqft_living", "sqft_lot",
   "floors", "waterfront", "view", "condition", "sqft_above",
   "sqft_basement", "yr_built", "yr_renovated", "street", "city",
   "statezip", "country"]

/-- The three derived columns, in the order `data_prepared` appends
them. -/
def derivedColumns : List String :=
  ["bedrooms_to_bathrooms_ratio", "price_per_sqft",
   "bedrooms_bathrooms_interaction"]

/-- `df.drop(columns=...)`: remove the named columns, keeping order. -/
def dropCols (cols drop : List String) : List String :=
  cols.filter fun c => !(drop.contains c)

/-- Column order of the table returned by `data_prepared`: original
order with the derived columns appended, then the two drop calls. -/
def preparedColumns : List String :=
  dropCols (dropCols (rawColumns ++ derivedColumns) ["country", "statezip"])
    ["sqft_above", "sqft_basement", "yr_renovated", "condition", "yr_built",
     "date", "street", "city", "sqft_lot"]

/-- Training-time feature schema: `X = data_prepared().drop(columns=['price'])`. -/
def trainingFeatureColumns : List String := dropCols preparedColumns ["price"]

/-- Column order of the single-row dataframe `input_data` built inside
`update_output` (pandas keeps dict insertion order). -/
def servingColumns : List String :=
  ["bedrooms", "bathrooms", "sqft_living", "floors", "waterfront", "view",
   "bedrooms_to_bathrooms_ratio", "price_per_sqft",
   "bedrooms_bathrooms_interaction"]

/-! ## Feature rows, splits and the notebook's cell sequence -/

/-- One row of the feature table `X` (the prepared row minus price). -/
structure FeatRow where
  bedrooms : ℚ
  bathrooms : ℚ
  sqft_living : ℚ
  floors : ℚ
  waterfront : ℚ
  view : ℚ
  bedrooms_to_bathrooms_ratio : PVal
  price_per_sqft : PVal
  bedrooms_bathrooms_interaction : ℚ
deriving DecidableEq

/-- `data_prepared().drop(columns=['price'])`, row-wise. -/
def PrepRow.toFeatures (p : PrepRow) : FeatRow :=
  { bedrooms := p.bedrooms
    bathrooms := p.bathrooms
    sqft_living := p.sqft_living
    floors := p.floors
    waterfront := p.waterfront
    view := p.view
    bedrooms_to_bathrooms_ratio := p.bedrooms_to_bathrooms_ratio
    price_per_sqft := p.price_per_sqft
    bedrooms_bathrooms_interaction := p.bedrooms_bathrooms_interaction }

/-- The notebook's `X` (features). -/
def featuresX (raw : List RawRow) : List FeatRow :=
  (data_prepared raw).map PrepRow.toFeatures

/-- The notebook's `y` (target prices). -/
def targetY (raw : List RawRow) : List ℚ :=
  (data_prepared raw).map (·.price)

/-- `X` and `y` zipped into supervised pairs, so one split handles both. -/
def dataPairs (raw : List RawRow) : List (FeatRow × ℚ) :=
  (featuresX raw).zip (targetY raw)

/-- A train/test partition. -/
structure Split (α : Type) where
  train : List α
  test : List α
deriving DecidableEq

/-- sklearn's test-set size for test fraction tnum / tden (tden > 0):
ceil(test_size * n), computed as (tnum * n + tden - 1) / tden in
natural arithmetic. -/
def nTest (n tnum tden : ℕ) : ℕ := (tnum * n + tden - 1) / tden

/-- sklearn `train_test_split` with test fraction tnum / tden: shuffle
(the permutation drawn from random_state 42 is the abstract
`shuffle`), take the first ceil(test_size * n) rows as the test set
and the rest as training. -/
def trainTestSplit {α : Type} (shuffle : List α → List α) (xs : List α)
    (tnum tden : ℕ) : Split α :=
  let s := shuffle xs
  let k := nTest s.length tnum tden
  { test := s.take k, train := s.drop k }

/-- A notebook cell that touches the split binding or fits a model.
`assignSplit` carries the test fraction tnum / tden. -/
inductive Cell where
  | assignSplit (tnum tden : ℕ)
  | fitModel (name : String)
deriving DecidableEq

/-- Notebook state: the current `X_train/y_train` binding and the fit
calls made so far, each recorded with the training data it received. -/
structure NBState where
  split : Split (FeatRow × ℚ)
  fits : List (String × List (FeatRow × ℚ))
deriving DecidableEq

/-- Execute one cell: `assignSplit` overwrites the split binding
(`train_test_split(X, y, test_size, random_state=42)`), `fitModel`
fits a model on the current `X_train, y_train`. -/
def runCell (shuffle : List (FeatRow × ℚ) → List (FeatRow × ℚ))
    (pairs : List (FeatRow × ℚ)) (s : NBState) : Cell → NBState :=
  fun c =>
    match c with
    | .assignSplit a b => { s with split := trainTestSplit shuffle pairs a b }
    | .fitModel name => { s with fits := s.fits ++ [(name, s.split.train)] }

/-- The notebook's cells in execution order: the 0.3 split (cell 30),
the 0.2 split that overwrites it (cell 31), then the three fits
(`rf_reg.fit`, the imputer pipeline `rf.fit`, the grid search
`model.fit`). -/
def notebookCells : List Cell :=
  [.assignSplit 3 10, .assignSplit 1 5, .fitModel "rf_reg",
   .fitModel "rf_pipeline", .fitModel "grid_search_model"]

/-- Run the notebook's split/fit cells in order. -/
def notebookRun (shuffle : List (FeatRow × ℚ) → List (FeatRow × ℚ))
    (raw : List RawRow) : NBState :=
  notebookCells.foldl (fun s c => runCell shuffle (dataPairs raw) s c)
    { split := { train := [], test := [] }, fits := [] }

/-! ## Random forests (fitted model artifacts) -/

/-- A fitted decision tree: internal nodes test `feature ≤ threshold`
(left on true, right on false), leaves carry the learned value. -/
inductive RTree where
  | leaf (v : ℚ)
  | node (feature : ℕ) (threshold : ℚ) (left right : RTree)
deriving DecidableEq

/-- Numpy comparison `v ≤ t` on an extended value: NaN and +inf compare
false against any finite threshold. -/
def pleB (v : PVal) (t : ℚ) : Bool :=
  match v with
  | .fin q => decide (q ≤ t)
  | .ninf => true
  | .inf => false
  | .nan => false

/-- Tree prediction on a feature vector. -/
def RTree.predict : RTree → List PVal → ℚ
  | .leaf v, _ => v
  | .node f t l r, x => if pleB (x.getD f .nan) t then l.predict x else r.predict x

/-- A fitted random-forest regressor: an ensemble of trees whose
prediction is the mean of the tree predictions. -/
structure Forest where
  trees : List RTree
deriving DecidableEq

/-- Forest prediction on one feature vector: mean over the trees. -/
def Forest.predictOne (F : Forest) (x : List PVal) : ℚ :=
  (F.trees.map fun t => t.predict x).sum / (F.trees.length : ℚ)

/-- `predict` on a batch of rows: one prediction per input row. -/
def Forest.predictBatch (F : Forest) (rows : List (List PVal)) : List ℚ :=
  rows.map F.predictOne

/-- All leaf values of the tree are non-negative.  A regression tree
fitted on non-negative targets satisfies this: each leaf value is a
mean of a subset of the targets. -/
def RTree.leavesNonneg : RTree → Bool
  | .leaf v => decide (0 ≤ v)
  | .node _ _ l r => l.leavesNonneg && r.leavesNonneg

/-- Every tree of the forest has non-negative leaves. -/
def Forest.leavesNonneg (F : Forest) : Bool :=
  F.trees.all RTree.leavesNonneg

/-! ## Grid search (cell 38 and cell 41) -/

/-- Python `range(start, stop, step)` for a positive step. -/
def pyRange (start stop step : ℕ) : List ℕ :=
  (List.range ((stop - start + step - 1) / step)).map fun i => start + i * step

/-- `range(25, 100, 25)`: the n_estimators candidates. -/
def nEstimatorsGrid : List ℕ := pyRange 25 100 25

/-- `range(10, 50, 10)`: the max_depth candidates. -/
def maxDepthGrid : List ℕ := pyRange 10 50 10

/-- The hyper-parameter grid `params`: every (n_estimators, max_depth)
combination. -/
def paramGrid : List (ℕ × ℕ) :=
  nEstimatorsGrid.flatMap fun n => maxDepthGrid.map fun d => (n, d)

/-- `cv=5` in the GridSearchCV call. -/
def cvFolds : ℕ := 5

/-- Cross-validated score of one parameter combination: the mean of the
`cvFolds` per-fold scores.  The per-fold scoring (fitting on four
folds, scoring on the fifth) is library code, abstracted as `score`. -/
def meanCvScore (score : ℕ × ℕ → ℕ → ℚ) (p : ℕ × ℕ) : ℚ :=
  ((List.range cvFolds).map (score p)).sum / (cvFolds : ℚ)

/-- The parameter combination GridSearchCV selects: the grid member
maximizing the mean cross-validated score. -/
def gridSearchBest (score : ℕ × ℕ → ℕ → ℚ) : ℕ × ℕ :=
  (paramGrid.argmax (meanCvScore score)).getD (25, 10)

/-- GridSearchCV with `refit=True`: after selecting the best
combination, refit it on the full training data handed to `fit`.
Fitting itself is library code, abstracted as the oracle `fit`. -/
def gridSearchFitted (fit : ℕ × ℕ → List (FeatRow × ℚ) → Forest)
    (score : ℕ × ℕ → ℕ → ℚ) (train : List (FeatRow × ℚ)) : Forest :=
  fit (gridSearchBest score) train

/-! ## Currency formatting (Python format spec ",.2f") -/

/-- Round half to even, as Python float formatting does at the rounding
digit. -/
def roundHalfEven (q : ℚ) : ℤ :=
  let f : ℤ := ⌊q⌋
  let r : ℚ := q - (f : ℚ)
  if r < 1 / 2 then f
  else if 1 / 2 < r then f + 1
  else if f % 2 = 0 then f else f + 1

/-- Base-10 digits of `n`, least significant first, with explicit fuel
(structural recursion so that concrete evaluation reduces in the
kernel; `fuel ≥ n` suffices). -/
def digitsAux : ℕ → ℕ → List ℕ
  | 0, n => [n]
  | f + 1, n => if n < 10 then [n] else n % 10 :: digitsAux f (n / 10)

/-- Base-10 digits of `n`, least significant first. -/
def natDigitsRev (n : ℕ) : List ℕ := digitsAux n n

/-- Decimal rendering of `n`, most significant digit first. -/
def natDigitChars (n : ℕ) : List Char :=
  ((natDigitsRev n).map Nat.digitChar).reverse

/-- Split `n` into base-1000 groups, most significant first, with
explicit fuel (`fuel ≥ n` suffices). -/
def thousandsGroupsAux : ℕ → ℕ → List ℕ
  | 0, n => [n]
  | f + 1, n =>
    if n < 1000 then [n] else thousandsGroupsAux f (n / 1000) ++ [n % 1000]

/-- Base-1000 groups of `n`, most significant first. -/
def thousandsGroups (n : ℕ) : List ℕ := thousandsGroupsAux n n

/-- Render a base-1000 group zero-padded to three digits. -/
def pad3 (m : ℕ) : List Char :=
  [Nat.digitChar (m / 100), Nat.digitChar (m / 10 % 10), Nat.digitChar (m % 10)]

/-- Render a cent amount zero-padded to two digits. -/
def pad2 (m : ℕ) : List Char :=
  [Nat.digitChar (m / 10), Nat.digitChar (m % 10)]

/-- The comma-separated groups of the integer part: the leading group
unpadded, every later group zero-padded to three digits. -/
def groupedIntChars (n : ℕ) : List (List Char) :=
  match thousandsGroups n with
  | [] => []
  | g :: gs => natDigitChars g :: gs.map pad3

/-- Python `format(x, ",.2f")` on a rational: round to cents (half to
even), then print sign, thousands-separated integer part, a dot, and
exactly two fraction digits. -/
def formatCommaTwo (q : ℚ) : String :=
  let c : ℤ := roundHalfEven (q * 100)
  let sign : List Char := if c < 0 then ['-'] else []
  let a : ℕ := c.natAbs
  String.mk
    (sign ++ List.intercalate [','] (groupedIntChars (a / 100)) ++
      '.' :: pad2 (a % 100))

/-! ## The Dash serving callback `update_output` -/

/-- Feature vector of a row, in the training column order (positions
match `trainingFeatureColumns`). -/
def FeatRow.vec (r : FeatRow) : List PVal :=
  [.fin r.bedrooms, .fin r.bathrooms, .fin r.sqft_living, .fin r.floors,
   .fin r.waterfront, .fin r.view, r.bedrooms_to_bathrooms_ratio,
   r.price_per_sqft, .fin r.bedrooms_bathrooms_interaction]

/-- The single row of `input_data` assembled inside `update_output`:
the six form inputs, the ratio and interaction computed inline, and
`price_per_sqft` hardcoded to 0. -/
def servingRow (bedrooms bathrooms sqft_living floors waterfront view : ℚ) :
    FeatRow :=
  { bedrooms := bedrooms
    bathrooms := bathrooms
    sqft_living := sqft_living
    floors := floors
    waterfront := waterfront
    view := view
    bedrooms_to_bathrooms_ratio := pdiv bedrooms bathrooms
    price_per_sqft := .fin 0
    bedrooms_bathrooms_interaction := bedrooms * bathrooms }

/-- The serving process's global bindings: the plain fitted regressor
`rf_reg` (cell 31) and the grid-searched `model` (cell 41). -/
structure Env where
  rf_reg : Forest
  model : Forest

/-- The Dash callback: when the button has been clicked, assemble the
one-row feature table, predict with `rf_reg`, take prediction index 0
and return the formatted text; otherwise return nothing. -/
def update_output (env : Env) (n_clicks : ℕ)
    (bedrooms bathrooms sqft_living floors waterfront view : ℚ) :
    Option String :=
  if 0 < n_clicks then
    let input_data : List FeatRow :=
      [servingRow bedrooms bathrooms sqft_living floors waterfront view]
    let preds := env.rf_reg.predictBatch (input_data.map FeatRow.vec)
    let predicted_price := preds.getD 0 0
    some ("Predicted Price: $" ++ formatCommaTwo predicted_price)
  else none

/-! ## Concrete data used to instantiate the theorems -/

/-- A raw row with price 50 and bathrooms 0 (all string columns empty,
unused numeric columns 0). -/
def rowMid : RawRow :=
  { date := "", price := 50, bedrooms := 3, bathrooms := 0,
    sqft_living := 100, sqft_lot := 0, floors := 1, waterfront := 0,
    view := 0, condition := 0, sqft_above := 0, sqft_basement := 0,
    yr_built := 0, yr_renovated := 0, street := "", city := "",
    statezip := "", country := "" }

/-- Like `rowMid` but price 0 (still bathrooms 0). -/
def rowLow : RawRow := { rowMid with price := 0 }

/-- Like `rowMid` but price 100 and bathrooms 2. -/
def rowHigh : RawRow := { rowMid with price := 100, bathrooms := 2 }

/-- A ten-row dataset with identical prices (so the quantile filter
keeps every row and the prepared table has ten rows). -/
def rowsTen : List RawRow := List.replicate 10 rowHigh

/-- A one-tree forest predicting 250000 everywhere. -/
def forestA : Forest := { trees := [.leaf 250000] }

/-- A one-tree forest predicting 100 everywhere. -/
def forestB : Forest := { trees := [.leaf 100] }

/-- A serving environment where `rf_reg` and the grid-searched `model`
disagree on every input. -/
def envW : Env := { rf_reg := forestA, model := forestB }

/-- A constant per-fold score, used to instantiate the grid-search
oracle. -/
def constScore : ℕ × ℕ → ℕ → ℚ := fun _ _ => 0

/-- A trivial fit oracle: ignores data and returns the empty forest. -/
def constFit : ℕ × ℕ → List (FeatRow × ℚ) → Forest := fun _ _ => { trees := [] }

/-- `ip` is a decimal numeral with thousands separators: a nonempty
comma-free digit group of at most three digits, followed by
comma-separated digit groups of exactly three digits. -/
def commaGrouped (ip : List Char) : Prop :=
  ∃ gs : List (List Char),
    ip = List.intercalate [','] gs ∧ gs ≠ [] ∧
    (∀ g ∈ gs, g ≠ [] ∧ g.length ≤ 3 ∧ ∀ c ∈ g, c.isDigit) ∧
    ∀ g ∈ gs.tail, g.length = 3

/-! ## Theorems -/

/-- Membership in the prepared table: exactly the prepared images of
raw rows whose price lies within the two price quantiles. -/
theorem mem_data_prepared {raw : List RawRow} {p : PrepRow} :
    p ∈ data_prepared raw ↔
      ∃ r, r ∈ raw ∧ priceQ10 raw ≤ r.price ∧ r.price ≤ priceQ90 raw ∧
        prepareRow r = p := by
  simp only [data_prepared, List.mem_map, List.mem_filter, Bool.and_eq_true,
    decide_eq_true_eq]
  constructor
  · rintro ⟨r, ⟨hr, h1, h2⟩, he⟩
    exact ⟨r, hr, h1, h2, he⟩
  · rintro ⟨r, hr, h1, h2, he⟩
    exact ⟨r, ⟨hr, h1, h2⟩, he⟩

/-- Claim C1: `data_prepared` retains exactly the rows whose price lies
between the 10th and 90th percentile of the original price column,
inclusive: a raw row's prepared image is in the output iff its price
satisfies the bounds, and every output row satisfies the bounds. -/
theorem C1_quantile_filter_exact (raw : List RawRow) (r : RawRow)
    (hr : r ∈ raw) :
    (prepareRow r ∈ data_prepared raw ↔
      priceQ10 raw ≤ r.price ∧ r.price ≤ priceQ90 raw) ∧
    ∀ p ∈ data_prepared raw,
      priceQ10 raw ≤ p.price ∧ p.price ≤ priceQ90 raw := by
  refine ⟨⟨fun hp => ?_, fun hb => ?_⟩, fun p hp => ?_⟩
  · rcases mem_data_prepared.mp hp with ⟨r2, _, h1, h2, he⟩
    have hpp : r2.price = r.price := congrArg PrepRow.price he
    exact ⟨hpp ▸ h1, hpp ▸ h2⟩
  · exact mem_data_prepared.mpr ⟨r, hr, hb.1, hb.2, rfl⟩
  · rcases mem_data_prepared.mp hp with ⟨r2, _, h1, h2, he⟩
    rw [← he]
    exact ⟨h1, h2⟩

/-- Witness for C1 on the one-row dataset `[rowMid]`. -/
theorem C1_quantile_filter_exact_witness :
    rowMid ∈ [rowMid] ∧
    ((prepareRow rowMid ∈ data_prepared [rowMid] ↔
      priceQ10 [rowMid] ≤ rowMid.price ∧ rowMid.price ≤ priceQ90 [rowMid]) ∧
    ∀ p ∈ data_prepared [rowMid],
      priceQ10 [rowMid] ≤ p.price ∧ p.price ≤ priceQ90 [rowMid]) :=
  ⟨List.mem_singleton.mpr rfl,
    C1_quantile_filter_exact [rowMid] rowMid (List.mem_singleton.mpr rfl)⟩

/-- Claim C2: the single-row feature table assembled by `update_output`
has the same column names, in the same order, and the same column
count as the training-time feature schema
(`data_prepared()` minus price). -/
theorem C2_serving_schema_equals_training_schema :
    servingColumns = trainingFeatureColumns ∧
    servingColumns.length = 9 ∧ trainingFeatureColumns.length = 9 := by
  decide

/-- Claim C3: training rows carry price_per_sqft = price / sqft_living,
the serving row hardcodes price_per_sqft to 0, and whenever the true
price is nonzero the training-time value differs from that constant. -/
theorem C3_price_per_sqft_train_serve_skew :
    (∀ raw : List RawRow, ∀ p ∈ data_prepared raw,
      p.price_per_sqft = pdiv p.price p.sqft_living) ∧
    (∀ b ba s f w v : ℚ,
      (servingRow b ba s f w v).price_per_sqft = PVal.fin 0) ∧
    ∀ price s : ℚ, price ≠ 0 → pdiv price s ≠ PVal.fin 0 := by
  refine ⟨fun raw p hp => ?_, fun _ _ _ _ _ _ => rfl, fun price s hp => ?_⟩
  · rcases mem_data_prepared.mp hp with ⟨r, _, _, _, he⟩
    rw [← he]
    rfl
  · by_cases hs : s = 0
    · subst hs
      rcases hp.lt_or_lt with h | h
      · simp [pdiv, h, not_lt.mpr h.le]
      · simp [pdiv, h]
    · simp only [pdiv, if_pos hs, ne_eq, PVal.fin.injEq]
      exact div_ne_zero hp hs

/-- Witness for C3: the one-row dataset `[rowMid]` and the concrete
quotient 50 / 100. -/
theorem C3_price_per_sqft_train_serve_skew_witness :
    (prepareRow rowMid ∈ data_prepared [rowMid] ∧
      (prepareRow rowMid).price_per_sqft =
        pdiv (prepareRow rowMid).price (prepareRow rowMid).sqft_living) ∧
    (50 : ℚ) ≠ 0 ∧ pdiv 50 100 ≠ PVal.fin 0 := by
  have h := C3_price_per_sqft_train_serve_skew
  have hm : prepareRow rowMid ∈ data_prepared [rowMid] := by
    norm_num [data_prepared, priceQ10, priceQ90, quantile, sortAsc,
      insertSorted, rowMid, List.filter]
  exact ⟨⟨hm, h.1 [rowMid] _ hm⟩, by norm_num,
    h.2.2 50 100 (by norm_num)⟩

/-- Claim C5: for prepared rows with nonzero bathrooms the ratio column
is bedrooms / bathrooms, and the serving callback computes the same
quotient `pdiv bedrooms bathrooms` for its single row. -/
theorem C5_ratio_definition :
    (∀ raw : List RawRow, ∀ p ∈ data_prepared raw, p.bathrooms ≠ 0 →
      p.bedrooms_to_bathrooms_ratio = PVal.fin (p.bedrooms / p.bathrooms)) ∧
    (∀ b ba s f w v : ℚ,
      (servingRow b ba s f w v).bedrooms_to_bathrooms_ratio = pdiv b ba) ∧
    ∀ b ba : ℚ, ba ≠ 0 → pdiv b ba = PVal.fin (b / ba) := by
  refine ⟨fun raw p hp hba => ?_, fun _ _ _ _ _ _ => rfl,
    fun b ba hba => by simp only [pdiv, if_pos hba]⟩
  rcases mem_data_prepared.mp hp with ⟨r, _, _, _, he⟩
  rw [← he] at hba ⊢
  show pdiv r.bedrooms r.bathrooms = PVal.fin (r.bedrooms / r.bathrooms)
  have hba2 : r.bathrooms ≠ 0 := hba
  simp only [pdiv, if_pos hba2]

/-- Witness for C5 on the one-row dataset `[rowHigh]` (bathrooms 2)
and the concrete quotient 3 / 2. -/
theorem C5_ratio_definition_witness :
    (prepareRow rowHigh ∈ data_prepared [rowHigh] ∧
      (prepareRow rowHigh).bathrooms ≠ 0 ∧
      (prepareRow rowHigh).bedrooms_to_bathrooms_ratio =
        PVal.fin ((prepareRow rowHigh).bedrooms / (prepareRow rowHigh).bathrooms)) ∧
    (3 : ℚ) ≠ 0 ∧ pdiv 2 3 = PVal.fin (2 / 3) := by
  have h := C5_ratio_definition
  have hm : prepareRow rowHigh ∈ data_prepared [rowHigh] := by
    norm_num [data_prepared, priceQ10, priceQ90, quantile, sortAsc,
      insertSorted, rowHigh, rowMid, List.filter]
  have hba : (prepareRow rowHigh).bathrooms ≠ 0 := by
    norm_num [prepareRow, rowHigh, rowMid]
  exact ⟨⟨hm, hba, h.1 [rowHigh] _ hm hba⟩, by norm_num,
    h.2.2 2 3 (by norm_num)⟩

/-- Claim C9: for a fixed environment (fitted model) and fixed input
values, any two clicked invocations of the callback return the same
output. -/
theorem C9_prediction_deterministic (env : Env) (n₁ n₂ : ℕ)
    (h₁ : 0 < n₁) (h₂ : 0 < n₂) (b ba s f w v : ℚ) :
    update_output env n₁ b ba s f w v = update_output env n₂ b ba s f w v := by
  simp only [update_output, if_pos h₁, if_pos h₂]

/-- Witness for C9: clicks 1 and 2 on the example form input. -/
theorem C9_prediction_deterministic_witness :
    0 < 1 ∧ 0 < 2 ∧
    update_output envW 1 3 2 1500 1 0 0 = update_output envW 2 3 2 1500 1 0 0 :=
  ⟨by decide, by decide,
    C9_prediction_deterministic envW 1 2 (by decide) (by decide) 3 2 1500 1 0 0⟩

/-- Counterexample to claim C4 as stated: the dataset
`[rowLow, rowHigh]` contains a row with bathrooms = 0 (rowLow), yet
`data_prepared` returns the empty table — the quantile filter drops
both rows (prices 0 and 100 against q10 = 10, q90 = 90), so no
infinite or NaN ratio for that row appears in the training table. -/
theorem C4_counterexample :
    rowLow ∈ [rowLow, rowHigh] ∧ rowLow.bathrooms = 0 ∧
    data_prepared [rowLow, rowHigh] = [] := by
  refine ⟨by simp, rfl, ?_⟩
  norm_num [data_prepared, priceQ10, priceQ90, quantile, sortAsc,
    insertSorted, rowLow, rowHigh, rowMid, List.filter]

/-- Claim C4 (amended): for every dataset row with bathrooms = 0 whose
price passes the quantile filter, `data_prepared` keeps the row
without error or guard, and its bedrooms_to_bathrooms_ratio is an
infinite or NaN value in the returned table. -/
theorem C4_division_by_zero_unguarded (raw : List RawRow) (r : RawRow)
    (hr : r ∈ raw) (hb : r.bathrooms = 0)
    (h1 : priceQ10 raw ≤ r.price) (h2 : r.price ≤ priceQ90 raw) :
    prepareRow r ∈ data_prepared raw ∧
    ((prepareRow r).bedrooms_to_bathrooms_ratio = PVal.inf ∨
     (prepareRow r).bedrooms_to_bathrooms_ratio = PVal.ninf ∨
     (prepareRow r).bedrooms_to_bathrooms_ratio = PVal.nan) := by
  refine ⟨mem_data_prepared.mpr ⟨r, hr, h1, h2, rfl⟩, ?_⟩
  have hrw : (prepareRow r).bedrooms_to_bathrooms_ratio = pdiv r.bedrooms 0 := by
    rw [show (prepareRow r).bedrooms_to_bathrooms_ratio =
      pdiv r.bedrooms r.bathrooms from rfl, hb]
  rw [hrw]
  rcases lt_trichotomy r.bedrooms 0 with h | h | h
  · right; left; simp [pdiv, h, not_lt.mpr h.le]
  · right; right; simp [pdiv, h]
  · left; simp [pdiv, h]

/-- Witness for the amended C4: the one-row dataset `[rowMid]`
(price 50, bathrooms 0), whose single row passes the filter. -/
theorem C4_division_by_zero_unguarded_witness :
    (rowMid ∈ [rowMid] ∧ rowMid.bathrooms = 0 ∧
      priceQ10 [rowMid] ≤ rowMid.price ∧ rowMid.price ≤ priceQ90 [rowMid]) ∧
    (prepareRow rowMid ∈ data_prepared [rowMid] ∧
      ((prepareRow rowMid).bedrooms_to_bathrooms_ratio = PVal.inf ∨
       (prepareRow rowMid).bedrooms_to_bathrooms_ratio = PVal.ninf ∨
       (prepareRow rowMid).bedrooms_to_bathrooms_ratio = PVal.nan)) := by
  have hq1 : priceQ10 [rowMid] ≤ rowMid.price := by
    norm_num [priceQ10, quantile, sortAsc, insertSorted, rowMid]
  have hq2 : rowMid.price ≤ priceQ90 [rowMid] := by
    norm_num [priceQ90, quantile, sortAsc, insertSorted, rowMid]
  exact ⟨⟨by simp, rfl, hq1, hq2⟩,
    C4_division_by_zero_unguarded [rowMid] rowMid (by simp) rfl hq1 hq2⟩

/-- If a list is nonempty, `argmax` with any default picks a member. -/
theorem argmax_getD_mem {α : Type} (f : α → ℚ) (l : List α) (d : α)
    (hl : l ≠ []) : (l.argmax f).getD d ∈ l := by
  cases hh : l.argmax f with
  | none => exact absurd (List.argmax_eq_none.mp hh) hl
  | some m => exact List.argmax_mem (Option.mem_iff.mpr hh)

/-- If a list is nonempty, `argmax` with any default maximizes `f`
over the list. -/
theorem argmax_getD_le {α : Type} (f : α → ℚ) (l : List α) (d : α)
    (hl : l ≠ []) {a : α} (ha : a ∈ l) : f a ≤ f ((l.argmax f).getD d) := by
  cases hh : l.argmax f with
  | none => exact absurd (List.argmax_eq_none.mp hh) hl
  | some m => exact List.le_of_mem_argmax ha (Option.mem_iff.mpr hh)

/-- Claim C6: the hyper-parameter search explores exactly
n_estimators ∈ {25, 50, 75} × max_depth ∈ {10, 20, 30, 40} (12
combinations), scores each with 5-fold cross-validation, selects a
best-scoring combination of the grid, and refits it on the full
training data. -/
theorem C6_grid_search_configuration :
    paramGrid.length = 12 ∧
    (∀ p : ℕ × ℕ, p ∈ paramGrid ↔
      (p.1 = 25 ∨ p.1 = 50 ∨ p.1 = 75) ∧
      (p.2 = 10 ∨ p.2 = 20 ∨ p.2 = 30 ∨ p.2 = 40)) ∧
    cvFolds = 5 ∧
    (∀ score : ℕ × ℕ → ℕ → ℚ, gridSearchBest score ∈ paramGrid) ∧
    (∀ score : ℕ × ℕ → ℕ → ℚ, ∀ p ∈ paramGrid,
      meanCvScore score p ≤ meanCvScore score (gridSearchBest score)) ∧
    ∀ (fit : ℕ × ℕ → List (FeatRow × ℚ) → Forest)
      (score : ℕ × ℕ → ℕ → ℚ) (train : List (FeatRow × ℚ)),
      gridSearchFitted fit score train = fit (gridSearchBest score) train := by
  have hne : paramGrid ≠ [] := by decide
  refine ⟨by decide, fun p => ?_, rfl,
    fun score => argmax_getD_mem _ _ _ hne,
    fun score p hp => argmax_getD_le _ _ _ hne hp,
    fun fit score train => rfl⟩
  have hg : paramGrid =
      [(25, 10), (25, 20), (25, 30), (25, 40), (50, 10), (50, 20),
       (50, 30), (50, 40), (75, 10), (75, 20), (75, 30), (75, 40)] := by
    decide
  rw [hg]
  rcases p with ⟨a, b⟩
  simp only [List.mem_cons, List.not_mem_nil, or_false, Prod.mk.injEq]
  omega

/-- Witness for C6: the combination (50, 20) is in the grid and is
scored no better than the selected best under the constant score. -/
theorem C6_grid_search_configuration_witness :
    (50, 20) ∈ paramGrid ∧
    meanCvScore constScore (50, 20) ≤
      meanCvScore constScore (gridSearchBest constScore) :=
  ⟨by decide,
    C6_grid_search_configuration.2.2.2.2.1 constScore (50, 20) (by decide)⟩

/-- Claim C7: the notebook first binds the 0.3 split, then overwrites
it with the 0.2 split, and every subsequent fit (rf_reg, the imputer
pipeline, the grid search) trains on the 0.2 split's training
partition; on a concrete ten-row dataset the two splits' training
partitions differ, so the fits are not on the 0.3 split. -/
theorem C7_resplit_overwrites_and_fits_use_80_20 :
    (∀ (shuffle : List (FeatRow × ℚ) → List (FeatRow × ℚ))
      (raw : List RawRow),
      ((notebookCells.take 1).foldl
        (fun s c => runCell shuffle (dataPairs raw) s c)
        { split := { train := [], test := [] }, fits := [] }).split =
        trainTestSplit shuffle (dataPairs raw) 3 10 ∧
      (notebookRun shuffle raw).split =
        trainTestSplit shuffle (dataPairs raw) 1 5 ∧
      (notebookRun shuffle raw).fits =
        [("rf_reg", (trainTestSplit shuffle (dataPairs raw) 1 5).train),
         ("rf_pipeline", (trainTestSplit shuffle (dataPairs raw) 1 5).train),
         ("grid_search_model",
           (trainTestSplit shuffle (dataPairs raw) 1 5).train)]) ∧
    (trainTestSplit id (dataPairs rowsTen) 3 10).train ≠
      (trainTestSplit id (dataPairs rowsTen) 1 5).train := by
  refine ⟨fun shuffle raw => ⟨rfl, rfl, rfl⟩, fun heq => ?_⟩
  have h10 : (dataPairs rowsTen).length = 10 := by
    norm_num [dataPairs, featuresX, targetY, data_prepared, priceQ10,
      priceQ90, quantile, sortAsc, insertSorted, rowsTen, rowHigh, rowMid,
      List.replicate, List.filter]
  have hl := congrArg List.length heq
  simp only [trainTestSplit, nTest, id_eq, List.length_drop, h10] at hl
  omega

/-- Claim C10: the serving callback always predicts with `rf_reg`; its
output is independent of the grid-searched `model`, and on a concrete
environment where the two models disagree the served price is still
rf_reg's prediction. -/
theorem C10_serving_predicts_with_rf_reg :
    (∀ (env : Env) (n : ℕ) (b ba s f w v : ℚ), 0 < n →
      update_output env n b ba s f w v =
        some ("Predicted Price: $" ++ formatCommaTwo
          (env.rf_reg.predictOne (servingRow b ba s f w v).vec)) ∧
      ∀ m : Forest, update_output { env with model := m } n b ba s f w v =
        update_output env n b ba s f w v) ∧
    envW.model.predictOne (servingRow 3 2 1500 1 0 0).vec ≠
      envW.rf_reg.predictOne (servingRow 3 2 1500 1 0 0).vec ∧
    update_output envW 1 3 2 1500 1 0 0 =
      some ("Predicted Price: $" ++ formatCommaTwo
        (envW.rf_reg.predictOne (servingRow 3 2 1500 1 0 0).vec)) := by
  refine ⟨fun env n b ba s f w v hn => ⟨?_, fun m => rfl⟩, ?_, ?_⟩
  · simp only [update_output, if_pos hn, Forest.predictBatch, List.map,
      List.getD, List.get?, Option.getD_some]
  · norm_num [envW, forestA, forestB, Forest.predictOne, RTree.predict]
  · simp only [update_output, if_pos Nat.one_pos, Forest.predictBatch,
      List.map, List.getD, List.get?, Option.getD_some]

/-- Witness for C10: click 1 on the example input in the concrete
environment `envW`. -/
theorem C10_serving_predicts_with_rf_reg_witness :
    0 < 1 ∧
    (update_output envW 1 3 2 1500 1 0 0 =
      some ("Predicted Price: $" ++ formatCommaTwo
        (envW.rf_reg.predictOne (servingRow 3 2 1500 1 0 0).vec)) ∧
    ∀ m : Forest, update_output { envW with model := m } 1 3 2 1500 1 0 0 =
      update_output envW 1 3 2 1500 1 0 0) :=
  ⟨Nat.one_pos,
    C10_serving_predicts_with_rf_reg.1 envW 1 3 2 1500 1 0 0 Nat.one_pos⟩

/-- A tree with non-negative leaves predicts a non-negative value. -/
theorem RTree.predict_nonneg {t : RTree} (h : t.leavesNonneg = true)
    (x : List PVal) : 0 ≤ t.predict x := by
  induction t with
  | leaf v =>
    exact of_decide_eq_true h
  | node f thr l r ihl ihr =>
    simp only [RTree.leavesNonneg, Bool.and_eq_true] at h
    simp only [RTree.predict]
    split
    · exact ihl h.1
    · exact ihr h.2

/-- A forest with non-negative leaves predicts a non-negative value. -/
theorem Forest.predictOne_nonneg {F : Forest} (h : F.leavesNonneg = true)
    (x : List PVal) : 0 ≤ F.predictOne x := by
  unfold Forest.predictOne
  apply div_nonneg
  · apply List.sum_nonneg
    intro q hq
    rcases List.mem_map.mp hq with ⟨t, ht, rfl⟩
    exact RTree.predict_nonneg
      (List.all_eq_true.mp h t ht) x
  · exact Nat.cast_nonneg _

/-- Rounding half to even preserves non-negativity. -/
theorem roundHalfEven_nonneg {q : ℚ} (h : 0 ≤ q) : 0 ≤ roundHalfEven q := by
  simp only [roundHalfEven]
  have hf : 0 ≤ ⌊q⌋ := Int.floor_nonneg.mpr h
  split
  · exact hf
  · split
    · omega
    · split <;> omega

/-- Every entry `digitsAux` produces is a digit (below 10), given
enough fuel. -/
theorem digitsAux_digits_lt {f n : ℕ} (h : n ≤ f) :
    ∀ d ∈ digitsAux f n, d < 10 := by
  induction f generalizing n with
  | zero =>
    have : n = 0 := by omega
    subst this
    intro d hd
    simp only [digitsAux, List.mem_singleton] at hd
    omega
  | succ f ih =>
    intro d hd
    simp only [digitsAux] at hd
    split at hd
    · rename_i hlt
      rw [List.mem_singleton] at hd
      omega
    · rename_i hlt
      rcases List.mem_cons.mp hd with rfl | hd2
      · omega
      · have hdiv : n / 10 < n := Nat.div_lt_self (by omega) (by norm_num)
        exact ih (by omega) d hd2

/-- `digitsAux` never returns the empty list. -/
theorem digitsAux_ne_nil {f n : ℕ} : digitsAux f n ≠ [] := by
  cases f with
  | zero => simp [digitsAux]
  | succ f =>
    simp only [digitsAux]
    split <;> simp

/-- `digitsAux n` has at most k digits when n < 10 ^ k (k ≥ 1). -/
theorem digitsAux_length_le {f n k : ℕ} (hf : n ≤ f) (hk : 1 ≤ k)
    (hn : n < 10 ^ k) : (digitsAux f n).length ≤ k := by
  induction f generalizing n k with
  | zero =>
    simp only [digitsAux, List.length_singleton]
    omega
  | succ f ih =>
    simp only [digitsAux]
    split
    · simp only [List.length_singleton]
      omega
    · rename_i hlt
      simp only [List.length_cons]
      have hk2 : 2 ≤ k := by
        by_contra h2
        have hk1 : k = 1 := by omega
        subst hk1
        simp only [pow_one] at hn
        omega
      have hdiv : n / 10 < 10 ^ (k - 1) := by
        rw [Nat.div_lt_iff_lt_mul (by norm_num)]
        calc n < 10 ^ k := hn
          _ = 10 ^ (k - 1) * 10 := by
            rw [← pow_succ]
            congr 1
            omega
      have hle : n / 10 ≤ f := by
        have := Nat.div_lt_self (by omega : 0 < n) (by norm_num : 1 < 10)
        omega
      have := ih hle (by omega : 1 ≤ k - 1) hdiv
      omega

/-- `Nat.digitChar` of a value below 10 is a digit character. -/
theorem digitChar_isDigit_of_lt {d : ℕ} (h : d < 10) :
    (Nat.digitChar d).isDigit = true := by
  interval_cases d <;> decide

/-- The decimal rendering of a natural number is nonempty. -/
theorem natDigitChars_ne_nil (n : ℕ) : natDigitChars n ≠ [] := by
  unfold natDigitChars natDigitsRev
  simp only [ne_eq, List.reverse_eq_nil_iff, List.map_eq_nil_iff]
  exact digitsAux_ne_nil

/-- The decimal rendering of n < 1000 has at most three characters. -/
theorem natDigitChars_length_le {n : ℕ} (h : n < 1000) :
    (natDigitChars n).length ≤ 3 := by
  unfold natDigitChars natDigitsRev
  rw [List.length_reverse, List.length_map]
  exact digitsAux_length_le le_rfl (by norm_num) (by norm_num; omega)

/-- Every character of the decimal rendering is a digit. -/
theorem natDigitChars_digits (n : ℕ) : ∀ c ∈ natDigitChars n, c.isDigit := by
  intro c hc
  unfold natDigitChars natDigitsRev at hc
  rw [List.mem_reverse, List.mem_map] at hc
  rcases hc with ⟨d, hd, rfl⟩
  exact digitChar_isDigit_of_lt (digitsAux_digits_lt le_rfl d hd)

/-- Every base-1000 group is below 1000, given enough fuel. -/
theorem thousandsGroupsAux_lt {f n : ℕ} (h : n ≤ f) :
    ∀ g ∈ thousandsGroupsAux f n, g < 1000 := by
  induction f generalizing n with
  | zero =>
    have : n = 0 := by omega
    subst this
    intro g hg
    simp only [thousandsGroupsAux, List.mem_singleton] at hg
    omega
  | succ f ih =>
    intro g hg
    simp only [thousandsGroupsAux] at hg
    split at hg
    · rename_i hlt
      rw [List.mem_singleton] at hg
      omega
    · rename_i hlt
      rcases List.mem_append.mp hg with hg2 | hg2
      · have hdiv : n / 1000 < n := Nat.div_lt_self (by omega) (by norm_num)
        exact ih (by omega) g hg2
      · rw [List.mem_singleton] at hg2
        omega

/-- `thousandsGroupsAux` never returns the empty list. -/
theorem thousandsGroupsAux_ne_nil {f n : ℕ} : thousandsGroupsAux f n ≠ [] := by
  cases f with
  | zero => simp [thousandsGroupsAux]
  | succ f =>
    simp only [thousandsGroupsAux]
    split <;> simp

/-- A padded three-digit group consists of digit characters. -/
theorem pad3_digits {m : ℕ} (h : m < 1000) : ∀ c ∈ pad3 m, c.isDigit := by
  intro c hc
  simp only [pad3, List.mem_cons, List.not_mem_nil, or_false] at hc
  rcases hc with rfl | rfl | rfl
  · exact digitChar_isDigit_of_lt (by omega)
  · exact digitChar_isDigit_of_lt (by omega)
  · exact digitChar_isDigit_of_lt (by omega)

/-- A padded cent amount consists of digit characters. -/
theorem pad2_digits {m : ℕ} (h : m < 100) : ∀ c ∈ pad2 m, c.isDigit := by
  intro c hc
  simp only [pad2, List.mem_cons, List.not_mem_nil, or_false] at hc
  rcases hc with rfl | rfl
  · exact digitChar_isDigit_of_lt (by omega)
  · exact digitChar_isDigit_of_lt (by omega)

/-- The comma groups of any natural number are well-formed: nonempty,
each group 1–3 digit characters, every group after the first exactly
three. -/
theorem groupedIntChars_spec (n : ℕ) :
    groupedIntChars n ≠ [] ∧
    (∀ g ∈ groupedIntChars n, g ≠ [] ∧ g.length ≤ 3 ∧ ∀ c ∈ g, c.isDigit) ∧
    ∀ g ∈ (groupedIntChars n).tail, g.length = 3 := by
  unfold groupedIntChars
  cases hh : thousandsGroups n with
  | nil => exact absurd hh thousandsGroupsAux_ne_nil
  | cons g gs =>
    have hlt : ∀ x ∈ g :: gs, x < 1000 := by
      rw [← hh]
      exact thousandsGroupsAux_lt le_rfl
    refine ⟨by simp, ?_, ?_⟩
    · intro gg hgg
      rcases List.mem_cons.mp hgg with rfl | hgg2
      · exact ⟨natDigitChars_ne_nil g,
          natDigitChars_length_le (hlt g (by simp)),
          natDigitChars_digits g⟩
      · rcases List.mem_map.mp hgg2 with ⟨m, hm, rfl⟩
        exact ⟨by simp [pad3], rfl.le,
          pad3_digits (hlt m (List.mem_cons_of_mem g hm))⟩
    · intro gg hgg
      rcases List.mem_map.mp hgg with ⟨m, _, rfl⟩
      rfl

/-- For a non-negative amount, `formatCommaTwo` produces a
thousands-separated integer part, a dot, and exactly two digits. -/
theorem formatCommaTwo_currency {p : ℚ} (hp : 0 ≤ p) :
    ∃ ip fp, formatCommaTwo p = String.mk (ip ++ '.' :: fp) ∧
      fp.length = 2 ∧ (∀ c ∈ fp, c.isDigit) ∧ commaGrouped ip := by
  have hc : 0 ≤ roundHalfEven (p * 100) :=
    roundHalfEven_nonneg (by positivity)
  refine ⟨List.intercalate [',']
      (groupedIntChars ((roundHalfEven (p * 100)).natAbs / 100)),
    pad2 ((roundHalfEven (p * 100)).natAbs % 100), ?_, rfl, ?_, ?_⟩
  · simp only [formatCommaTwo]
    rw [if_neg (by omega : ¬ roundHalfEven (p * 100) < 0)]
    simp
  · exact pad2_digits (Nat.mod_lt _ (by norm_num))
  · obtain ⟨h1, h2, h3⟩ :=
      groupedIntChars_spec ((roundHalfEven (p * 100)).natAbs / 100)
    exact ⟨groupedIntChars ((roundHalfEven (p * 100)).natAbs / 100),
      rfl, h1, h2, h3⟩

/-- Claim C8: for any clicked submission against a model whose fitted
trees have non-negative leaf values (as fitting on non-negative prices
yields), the callback produces exactly one prediction, that prediction
is non-negative, and the output is the prediction rendered as a
currency string with thousands separators and two decimal places. -/
theorem C8_prediction_nonneg_currency (env : Env) (n : ℕ) (hn : 0 < n)
    (b ba s f w v : ℚ) (hF : env.rf_reg.leavesNonneg = true) :
    ∃ p : ℚ,
      (env.rf_reg.predictBatch [(servingRow b ba s f w v).vec]).length = 1 ∧
      update_output env n b ba s f w v =
        some ("Predicted Price: $" ++ formatCommaTwo p) ∧
      0 ≤ p ∧
      ∃ ip fp, formatCommaTwo p = String.mk (ip ++ '.' :: fp) ∧
        fp.length = 2 ∧ (∀ c ∈ fp, c.isDigit) ∧ commaGrouped ip := by
  refine ⟨env.rf_reg.predictOne (servingRow b ba s f w v).vec, rfl, ?_,
    Forest.predictOne_nonneg hF _,
    formatCommaTwo_currency (Forest.predictOne_nonneg hF _)⟩
  simp only [update_output, if_pos hn, Forest.predictBatch, List.map,
    List.getD, List.get?, Option.getD_some]

/-- Witness for C8: click 1 on the example input
(bedrooms 3, bathrooms 2, sqft_living 1500, floors 1, waterfront 0,
view 0) against the concrete non-negative forest. -/
theorem C8_prediction_nonneg_currency_witness :
    0 < 1 ∧ envW.rf_reg.leavesNonneg = true ∧
    ∃ p : ℚ,
      (envW.rf_reg.predictBatch [(servingRow 3 2 1500 1 0 0).vec]).length = 1 ∧
      update_output envW 1 3 2 1500 1 0 0 =
        some ("Predicted Price: $" ++ formatCommaTwo p) ∧
      0 ≤ p ∧
      ∃ ip fp, formatCommaTwo p = String.mk (ip ++ '.' :: fp) ∧
        fp.length = 2 ∧ (∀ c ∈ fp, c.isDigit) ∧ commaGrouped ip :=
  ⟨Nat.one_pos, by decide,
    C8_prediction_nonneg_currency envW 1 Nat.one_pos 3 2 1500 1 0 0 (by decide)⟩
